import Mathlib

/-!
Verification of the volume assembly engine of Comic-Encoder
(`src/lib/build_vol.rs`, function `build_volume`).

The Rust source is shallowly embedded: filesystem paths become lists of
path components, the surrounding filesystem and the external collaborators
(directory scanner, image decoder, WebP encoder, fallible I/O operations)
become an explicit environment record of oracles, and `build_volume`
becomes a pure function from that environment and its arguments to an
outcome (success / typed error / panic) paired with the ordered list of
write effects it performed.
-/

/-- A filesystem path, as its list of components (Rust `PathBuf`).
Component strings are opaque names; no component contains a separator. -/
abbrev RPath := List String

/-- Split a character list at its LAST `'.'`; returns the parts before and
after that dot (dot excluded), or `none` when no dot occurs. -/
def splitLastDot (cs : List Char) : Option (List Char × List Char) :=
  let r := cs.reverse
  let afterRev := r.takeWhile (· ≠ '.')
  match r.dropWhile (· ≠ '.') with
  | [] => none
  | _ :: beforeRev => some (beforeRev.reverse, afterRev.reverse)

/-- Rust `Path::file_stem` on a file name: the whole name when it has no
embedded dot, or begins with a dot that is its only dot; otherwise the part
before the final dot. -/
def rustFileStem (name : String) : String :=
  match splitLastDot name.data with
  | none => name
  | some (before, _) => if before = [] then name else ⟨before⟩

/-- Rust `Path::extension` on a file name: the part after the final dot,
`none` when there is no dot or the only dot is a leading one. -/
def rustExtensionOfName (name : String) : Option String :=
  match splitLastDot name.data with
  | none => none
  | some (before, after) => if before = [] then none else some ⟨after⟩

/-- Rust `Path::set_extension` at the file-name level: stem, then `"." ++ ext`
when `ext` is non-empty. (A leading dot in `ext` is kept verbatim, as Rust
does: `with_extension(".comic-enc-partial")` yields a double dot.) -/
def rustWithExtensionName (name ext : String) : String :=
  if ext = "" then rustFileStem name else rustFileStem name ++ "." ++ ext

namespace RPath

/-- Rust `Path::join` with a single relative component. -/
def join (p : RPath) (s : String) : RPath := p ++ [s]

/-- Rust `Path::file_name`: the last component. -/
def fileName (p : RPath) : Option String := p.getLast?

/-- Rust `Path::with_extension`: unchanged when there is no file name. -/
def withExtension (p : RPath) (ext : String) : RPath :=
  match p.getLast? with
  | none => p
  | some last => p.dropLast ++ [rustWithExtensionName last ext]

/-- Rust `Path::with_file_name`: pop the file name, push the new one. -/
def withFileName (p : RPath) (name : String) : RPath :=
  p.dropLast ++ [name]

/-- Rust `Path::extension` of a full path. -/
def extension (p : RPath) : Option String :=
  match p.getLast? with
  | none => none
  | some last => rustExtensionOfName last

/-- Rust `Path::ends_with`: whole-component suffix test. Note that
`ends_with(".webp")` therefore tests whether the LAST COMPONENT is the
literal name `".webp"`, not whether the file has a `.webp` extension. -/
def endsWith (p q : RPath) : Bool := q.isSuffixOf p

end RPath

/-- Rust's `{:0w$}` format for an unsigned integer: decimal digits,
left-padded with `'0'` to a minimum width `w`. -/
def padNum (n w : Nat) : String :=
  let s := toString n
  String.mk (List.replicate (w - s.length) '0') ++ s

/-- Component-wise comparison of two paths, mirroring `PathBuf`'s `Ord`
(used by `Vec::<PathBuf>::sort`, the `simple_sorting` mode). -/
def rpathCompare : RPath → RPath → Ordering
  | [], [] => .eq
  | [], _ :: _ => .lt
  | _ :: _, [] => .gt
  | x :: xs, y :: ys =>
    match compare x y with
    | .eq => rpathCompare xs ys
    | o => o

/-- `≤` form of `rpathCompare`, as a merge-sort predicate. -/
def rpathLe (a b : RPath) : Bool := rpathCompare a b ≠ .gt

/-- Options of the `Ranges` build method (`CompileRanges`), restricted to the
fields `build_volume` reads. -/
structure CompileRanges where
  append_chapters_range : Bool
  debug_chapters_path : Bool
deriving DecidableEq

/-- Options of the `Each` build method (`CompileEach`), restricted to the
fields `build_volume` reads. -/
structure CompileEach where
  skip_existing : Bool
  display_full_names : Bool
deriving DecidableEq

/-- Options of the `Single` build method (`EncodeSingle`); `build_volume`
reads none of its fields. -/
structure EncodeSingle where
deriving DecidableEq

/-- `BuildMethod`: the three volume-assembly strategies. -/
inductive BuildMethod where
  | Ranges (opts : CompileRanges)
  | Each (opts : CompileEach)
  | Single (opts : EncodeSingle)
deriving DecidableEq

/-- `EncodingOptions`, restricted to the fields `build_volume` reads. -/
structure EncodingOptions where
  overwrite : Bool
  compress_losslessly : Bool
  compress_webp : Bool
  accept_extended_image_formats : Bool
  simple_sorting : Bool
  append_pages_count : Bool
deriving DecidableEq

/-- `BuildVolumeArgs`: the arguments of `build_volume`. A chapter is
`(chapter number, chapter directory path, chapter directory file name)`. -/
structure BuildVolumeArgs where
  method : BuildMethod
  enc_opts : EncodingOptions
  output : RPath
  volume : Nat
  volumes : Nat
  vol_num_len : Nat
  chapter_num_len : Nat
  start_chapter : Nat
  chapters : List (Nat × RPath × String)
deriving DecidableEq

/-- `deter::RecursiveFilesSearchErr`: failure modes of the recursive
chapter-directory scan. -/
inductive RecursiveFilesSearchErr where
  | IOError
  | InvalidFileName (path : RPath)
deriving DecidableEq

/-- The pixel formats of `image::DynamicImage` (image crate). -/
inductive DynamicImage where
  | ImageLuma8
  | ImageLumaA8
  | ImageRgb8
  | ImageRgba8
  | ImageLuma16
  | ImageLumaA16
  | ImageRgb16
  | ImageRgba16
  | ImageRgb32F
  | ImageRgba32F
deriving DecidableEq

/-- The grayscale promotion of `build_volume` (lines 361–365): 8-bit
single-channel and 8-bit single-channel-plus-alpha decoded images are
converted with `into_rgb8` to three-channel color; every other format is
passed through unchanged. -/
def promoteForWebp (im : DynamicImage) : DynamicImage :=
  match im with
  | .ImageLuma8 => .ImageRgb8
  | .ImageLumaA8 => .ImageRgb8
  | other => other

/-- The webp crate's `Encoder::from_image` (an external collaborator):
succeeds exactly for the 8-bit three-channel and 8-bit four-channel
formats, and returns an error value for every other format — which
`build_volume` unwraps. -/
def encoderFromImage (im : DynamicImage) : Option DynamicImage :=
  match im with
  | .ImageRgb8 => some im
  | .ImageRgba8 => some im
  | _ => none

/-- `EncodingError`: the typed errors `build_volume` can return, with their
volume / chapter / path context (`io::Error` and zip-error payloads are
dropped; they carry no information the control flow reads). -/
inductive EncodingError where
  | OutputVolumeFileAlreadyExists (volume : Nat) (path : RPath)
  | FailedToCreateVolumeFile (volume : Nat) (path : RPath)
  | FailedToListChapterDirectoryFiles (volume chapter : Nat) (chapter_path : RPath)
  | FoundItemWithInvalidName (volume chapter : Nat) (chapter_path invalid_item_path : RPath)
  | FailedToCreateChapterDirectoryInZip (volume chapter : Nat) (dir_name : String)
  | ItemHasInvalidUTF8Name (name : String)
  | FailedToCreateImageFileInZip (volume chapter : Nat) (file_path : RPath)
  | FailedToOpenImage (volume chapter : Nat) (chapter_path image_path : RPath)
  | FailedToReadImage (volume chapter : Nat) (chapter_path image_path : RPath)
  | FailedToConvertImageFileToZip (volume chapter : Nat) (chapter_path image_path : RPath)
  | FailedToWriteImageFileToZip (volume chapter : Nat) (chapter_path image_path : RPath)
  | FailedToCloseZipArchive (volume : Nat)
  | OutputVolumeFileIsADirectory (volume : Nat) (path : RPath)
  | FailedToOverwriteOutputVolumeFile (volume : Nat) (path : RPath)
  | FailedToRenameCompleteArchive (volume : Nat)
deriving DecidableEq

/-- Outcome of a (sub)computation: success, a typed recoverable error, or a
fatal panic (Rust `assert!` / `unwrap` / `expect`). -/
inductive Outcome (α : Type) where
  | ok (a : α)
  | err (e : EncodingError)
  | panic (msg : String)
deriving DecidableEq

/-- The filesystem / archive write effects `build_volume` performs, in
order. Reads of directories are recorded too (`scanDir`), so that
"performs no writes and scans nothing" is expressible as an empty trace. -/
inductive Effect where
  | createFile (p : RPath)
  | scanDir (p : RPath)
  | zipAddDirectory (name : String)
  | zipStartFile (p : RPath)
  | zipWrite (p : RPath) (bytes : List Nat)
  | zipFinish
  | removeFile (p : RPath)
  | rename (src dst : RPath)
deriving DecidableEq

/-- The environment: the state of the filesystem and the behaviour of the
external collaborators (scanner, decoder, WebP encoder, fallible I/O),
supplied as oracles. A `…Ok` field tells whether the corresponding
fallible operation succeeds. -/
structure Env where
  pathExists : RPath → Bool
  isDir : RPath → Bool
  createFileOk : RPath → Bool
  scanDir : RPath → Bool → Except RecursiveFilesSearchErr (List RPath)
  naturalLe : RPath → RPath → Bool
  zipAddDirOk : String → Bool
  zipStartFileOk : RPath → Bool
  openOk : RPath → Bool
  readOk : RPath → Bool
  fileBytes : RPath → List Nat
  decode : List Nat → Except Unit DynamicImage
  encodeWebp : DynamicImage → Nat → List Nat
  zipWriteOk : RPath → Bool
  zipFinishOk : Bool
  removeFileOk : RPath → Bool
  renameOk : RPath → RPath → Bool

/-- The output path without extension (lines 61–91), per build method.
For `Each` the caller has already passed the length-1 assertion, so the
head default is never read. -/
def outputPathWithoutExt (args : BuildVolumeArgs) : RPath :=
  match args.method with
  | .Ranges opts =>
    if !opts.append_chapters_range || args.chapters.isEmpty then
      args.output.join ("Volume-" ++ padNum args.volume args.vol_num_len)
    else
      args.output.join ("Volume-" ++ padNum args.volume args.vol_num_len
        ++ " (c" ++ padNum args.start_chapter args.chapter_num_len
        ++ "-c" ++ padNum (args.start_chapter + args.chapters.length - 1) args.chapter_num_len
        ++ ")")
  | .Each _ => args.output.join (args.chapters.headD (0, [], "")).2.2
  | .Single _ => args.output.withExtension ""

/-- `display_name_individual` (lines 134–148): quoted chapter-directory
name for `Each`, possibly truncated at 50 BYTES to 50 characters plus an
ellipsis; `none` for the other methods. -/
def displayNameIndividual (args : BuildVolumeArgs) : Option String :=
  match args.method with
  | .Each opts =>
    let nm := (args.chapters.headD (0, [], "")).2.2
    some (if opts.display_full_names then "'" ++ nm ++ "'"
      else if nm.utf8ByteSize ≤ 50 then "'" ++ nm ++ "'"
      else "'" ++ String.mk (nm.data.take 50) ++ "...'")
  | _ => none

/-- `volume_display_name` (lines 151–163). For `Single` the file name of
the extension-less output is `expect`ed, panicking when absent. -/
def volumeDisplayName (args : BuildVolumeArgs) (base : RPath) : Outcome String :=
  match args.method with
  | .Ranges _ => .ok (padNum args.volume args.vol_num_len)
  | .Each _ =>
    match displayNameIndividual args with
    | some s => .ok ("'" ++ s ++ "'")
    | none => .panic "called Option::unwrap on a None value"
  | .Single _ =>
    match base.fileName with
    | some n => .ok ("'" ++ n ++ "'")
    | none => .panic "Internal error: output path without extension has no filename when building"

/-- The in-zip directory name of a chapter (lines 254–264). -/
def zipDirName (args : BuildVolumeArgs) (chapter : Nat) : String :=
  match args.method with
  | .Each _ => (args.chapters.headD (0, [], "")).2.2
  | _ => "Vol_" ++ padNum args.volume args.vol_num_len
      ++ "_Chapter_" ++ padNum chapter args.chapter_num_len

/-- The extension of a page inside the archive (lines 284–290): `"webp"`
under WebP transcoding, else the source file's own extension —
`unwrap`ped, so a file without an extension panics. (File names are
modelled as valid Unicode, so the invalid-UTF-8 error arm of the source is
unreachable here.) -/
def picExt (enc_opts : EncodingOptions) (file : RPath) : Outcome String :=
  if enc_opts.compress_webp then .ok "webp"
  else
    match file.extension with
    | none => .panic "called Option::unwrap on a None value"
    | some e => .ok e

/-- Total variant of `picExt` for stating trace equalities; agrees with
`picExt` whenever the latter succeeds. -/
def picExtD (enc_opts : EncodingOptions) (file : RPath) : String :=
  if enc_opts.compress_webp then "webp" else (file.extension).getD ""

/-- The in-zip file name of a page (lines 291–310). -/
def nameInZip (method : BuildMethod) (vdn : String) (volume chapter : Nat)
    (vol_num_len chapter_num_len pic_num_len page_nb : Nat) (ext : String) : String :=
  match method with
  | .Each _ => vdn ++ "_Pic_" ++ padNum page_nb pic_num_len ++ "." ++ ext
  | _ => "Vol_" ++ padNum volume vol_num_len
      ++ "_Chapter_" ++ padNum chapter chapter_num_len
      ++ "_Pic_" ++ padNum page_nb pic_num_len ++ "." ++ ext

/-- The optional WebP transcoding of one page's bytes (lines 350–370):
performed exactly when `compress_webp` is set and the file path does not
`ends_with(".webp")` (a whole-component test, see `RPath.endsWith`).
Decode failure is a typed error; an encoder-unsupported pixel format after
grayscale promotion panics (`unwrap`); quality is the constant 60. -/
def transcodeIfNeeded (env : Env) (args : BuildVolumeArgs) (chapter : Nat)
    (chapter_path file : RPath) (buffer : List Nat) : Outcome (List Nat) :=
  if args.enc_opts.compress_webp && !(file.endsWith [".webp"]) then
    match env.decode buffer with
    | .error _ => .err (.FailedToConvertImageFileToZip args.volume chapter chapter_path file)
    | .ok im =>
      let im := promoteForWebp im
      match encoderFromImage im with
      | none => .panic "called Result::unwrap on an Err value"
      | some im => .ok (env.encodeWebp im 60)
  else .ok buffer

/-- Processing of one page (lines 282–386): in-zip name, zip entry
creation, open + read of the source file, optional transcoding, write. -/
def processPage (env : Env) (args : BuildVolumeArgs) (vdn : String) (chapter : Nat)
    (chapter_path : RPath) (zdn : String) (pic_num_len page_nb : Nat)
    (file : RPath) : Outcome Unit × List Effect :=
  match picExt args.enc_opts file with
  | .panic m => (.panic m, [])
  | .err e => (.err e, [])
  | .ok ext =>
    let name := nameInZip args.method vdn args.volume chapter
      args.vol_num_len args.chapter_num_len pic_num_len page_nb ext
    let path_in_zip : RPath := [zdn, name]
    if !env.zipStartFileOk path_in_zip then
      (.err (.FailedToCreateImageFileInZip args.volume chapter path_in_zip), [])
    else if !env.openOk file then
      (.err (.FailedToOpenImage args.volume chapter chapter_path file), [.zipStartFile path_in_zip])
    else if !env.readOk file then
      (.err (.FailedToReadImage args.volume chapter chapter_path file), [.zipStartFile path_in_zip])
    else
      match transcodeIfNeeded env args chapter chapter_path file (env.fileBytes file) with
      | .panic m => (.panic m, [.zipStartFile path_in_zip])
      | .err e => (.err e, [.zipStartFile path_in_zip])
      | .ok buffer =>
        if !env.zipWriteOk path_in_zip then
          (.err (.FailedToWriteImageFileToZip args.volume chapter chapter_path file),
            [.zipStartFile path_in_zip])
        else
          (.ok (), [.zipStartFile path_in_zip, .zipWrite path_in_zip buffer])

/-- Sequential processing of a chapter's sorted pages, starting at index
`i` (the `enumerate` of line 282); returns the number of written pages. -/
def processPages (env : Env) (args : BuildVolumeArgs) (vdn : String) (chapter : Nat)
    (chapter_path : RPath) (zdn : String) (pic_num_len : Nat) :
    Nat → List RPath → Outcome Nat × List Effect
  | _, [] => (.ok 0, [])
  | i, f :: rest =>
    match processPage env args vdn chapter chapter_path zdn pic_num_len i f with
    | (.ok _, effs) =>
      match processPages env args vdn chapter chapter_path zdn pic_num_len (i + 1) rest with
      | (.ok k, effs2) => (.ok (k + 1), effs ++ effs2)
      | (.err e, effs2) => (.err e, effs ++ effs2)
      | (.panic m, effs2) => (.panic m, effs ++ effs2)
    | (.err e, effs) => (.err e, effs)
    | (.panic m, effs) => (.panic m, effs)

/-- Stable insertion of an element into a sorted list. -/
def insertLe (le : RPath → RPath → Bool) (x : RPath) : List RPath → List RPath
  | [] => [x]
  | y :: ys => if le x y then x :: y :: ys else y :: insertLe le x ys

/-- Stable sort by a `≤` predicate (models Rust's stable `sort`/`sort_by`;
for a total preorder every stable sort produces this same list). -/
def sortByLe (le : RPath → RPath → Bool) : List RPath → List RPath
  | [] => []
  | x :: xs => insertLe le x (sortByLe le xs)

/-- The sorted page list of a chapter (lines 244–248): plain `PathBuf`
order under `simple_sorting`, else `deter::natural_paths_cmp` (an external
collaborator, supplied by the environment). -/
def sortedPics (env : Env) (args : BuildVolumeArgs) (pics : List RPath) : List RPath :=
  if args.enc_opts.simple_sorting then sortByLe rpathLe pics
  else sortByLe env.naturalLe pics

/-- Processing of one chapter (lines 169–387): recursive scan, sort, zip
directory entry, then every page; returns the number of written pages. -/
def processChapter (env : Env) (args : BuildVolumeArgs) (vdn : String)
    (chap : Nat × RPath × String) : Outcome Nat × List Effect :=
  let chapter := chap.1
  let chapter_path := chap.2.1
  match env.scanDir chapter_path args.enc_opts.accept_extended_image_formats with
  | .error .IOError =>
    (.err (.FailedToListChapterDirectoryFiles args.volume chapter chapter_path),
      [.scanDir chapter_path])
  | .error (.InvalidFileName p) =>
    (.err (.FoundItemWithInvalidName args.volume chapter chapter_path p),
      [.scanDir chapter_path])
  | .ok pics =>
    let sorted := sortedPics env args pics
    let zdn := zipDirName args chapter
    if !env.zipAddDirOk zdn then
      (.err (.FailedToCreateChapterDirectoryInZip args.volume chapter zdn),
        [.scanDir chapter_path])
    else
      let pic_num_len := (toString sorted.length).length
      match processPages env args vdn chapter chapter_path zdn pic_num_len 0 sorted with
      | (out, effs) =>
        (out, .scanDir chapter_path :: .zipAddDirectory zdn :: effs)

/-- Sequential processing of all chapters; returns the volume's
accumulated page counter (`pics_counter`). -/
def processChapters (env : Env) (args : BuildVolumeArgs) (vdn : String) :
    List (Nat × RPath × String) → Outcome Nat × List Effect
  | [] => (.ok 0, [])
  | c :: rest =>
    match processChapter env args vdn c with
    | (.ok k, effs) =>
      match processChapters env args vdn rest with
      | (.ok k2, effs2) => (.ok (k + k2), effs ++ effs2)
      | (.err e, effs2) => (.err e, effs ++ effs2)
      | (.panic m, effs2) => (.panic m, effs ++ effs2)
    | (.err e, effs) => (.err e, effs)
    | (.panic m, effs) => (.panic m, effs)

/-- The final path computation (lines 396–409): `.cbz` extension, plus the
`" (<N> pages)"` suffix when `append_pages_count` is set — computed from
the post-write page counter. -/
def completePathFor (args : BuildVolumeArgs) (base : RPath) (pics_counter : Nat) :
    Outcome RPath :=
  let complete := base.withExtension "cbz"
  if args.enc_opts.append_pages_count then
    match (complete.withExtension "").fileName with
    | none => .panic "Internal error: output path when building has no filename"
    | some fname =>
      .ok (complete.withFileName (fname ++ " (" ++ toString pics_counter ++ " pages).cbz"))
  else .ok complete

/-- The rename of the staging file onto the final path and the success
tail (lines 436–494): on success `build_volume` returns the STAGING path. -/
def renameStep (env : Env) (args : BuildVolumeArgs) (staging complete : RPath)
    (effs : List Effect) : Outcome RPath × List Effect :=
  if !env.renameOk staging complete then
    (.err (.FailedToRenameCompleteArchive args.volume), effs)
  else
    match complete.fileName with
    | none =>
      (.panic "Internal error: output path when building has no filename",
        effs ++ [.rename staging complete])
    | some _ => (.ok staging, effs ++ [.rename staging complete])

/-- Archive finalization and publishing (lines 389–494), transcribed with
the source's exact condition structure: when the final path exists, a
missing `overwrite` is the first error; then the source tests
`!complete_path.is_dir()` and returns `OutputVolumeFileIsADirectory` for a
NON-directory — the file/directory test as written — and otherwise calls
`remove_file` on the existing (directory) path before renaming. -/
def finishAndPublish (env : Env) (args : BuildVolumeArgs) (base staging : RPath)
    (pics_counter : Nat) : Outcome RPath × List Effect :=
  if !env.zipFinishOk then
    (.err (.FailedToCloseZipArchive args.volume), [])
  else
    match completePathFor args base pics_counter with
    | .panic m => (.panic m, [.zipFinish])
    | .err e => (.err e, [.zipFinish])
    | .ok complete =>
      if env.pathExists complete then
        if env.pathExists complete && !args.enc_opts.overwrite then
          (.err (.OutputVolumeFileAlreadyExists args.volume complete), [.zipFinish])
        else if !env.isDir complete then
          (.err (.OutputVolumeFileIsADirectory args.volume complete), [.zipFinish])
        else if !env.removeFileOk complete then
          (.err (.FailedToOverwriteOutputVolumeFile args.volume complete), [.zipFinish])
        else
          renameStep env args staging complete [.zipFinish, .removeFile complete]
      else
        renameStep env args staging complete [.zipFinish]

/-- The staging path (line 109): the base name with the partial-build
marker extension. -/
def stagingPathFor (base : RPath) : RPath :=
  base.withExtension ".comic-enc-partial"

/-- The build from the staging-file check onward (lines 108–494). -/
def buildVolumeStage (env : Env) (args : BuildVolumeArgs) (base : RPath) :
    Outcome RPath × List Effect :=
  let staging := stagingPathFor base
  if env.pathExists staging && !args.enc_opts.overwrite then
    (.err (.OutputVolumeFileAlreadyExists args.volume staging), [])
  else if !env.createFileOk staging then
    (.err (.FailedToCreateVolumeFile args.volume staging), [])
  else
    match volumeDisplayName args base with
    | .panic m => (.panic m, [.createFile staging])
    | .err e => (.err e, [.createFile staging])
    | .ok vdn =>
      match processChapters env args vdn args.chapters with
      | (.ok pics, effs) =>
        match finishAndPublish env args base staging pics with
        | (out, effs2) => (out, .createFile staging :: (effs ++ effs2))
      | (.err e, effs) => (.err e, .createFile staging :: effs)
      | (.panic m, effs) => (.panic m, .createFile staging :: effs)

/-- `build_volume` (lines 41–495): name resolution with the `Each` arity
assertion, the `Each`+`skip_existing` short-circuit, then the staged
build. -/
def buildVolume (env : Env) (args : BuildVolumeArgs) : Outcome RPath × List Effect :=
  match args.method with
  | .Each opts =>
    if args.chapters.length ≠ 1 then
      (.panic "Internal error: individual chapter's volume does contain exactly 1 chapter!", [])
    else
      let base := outputPathWithoutExt args
      if opts.skip_existing then
        let complete := base.withExtension "cbz"
        if env.pathExists complete then (.ok complete, [])
        else buildVolumeStage env args base
      else buildVolumeStage env args base
  | _ => buildVolumeStage env args (outputPathWithoutExt args)

/-- Whether the `Each` + `skip_existing` + existing-final-file
short-circuit (lines 95–106) fires. -/
def skipShortcutB (env : Env) (args : BuildVolumeArgs) : Bool :=
  match args.method with
  | .Each opts =>
    opts.skip_existing && env.pathExists ((outputPathWithoutExt args).withExtension "cbz")
  | _ => false

/-- Whether the `Each` arity assertion (lines 82–86) passes. -/
def eachArityOk (args : BuildVolumeArgs) : Bool :=
  match args.method with
  | .Each _ => args.chapters.length == 1
  | _ => true

/-- The number of scanned-and-accepted image files of one chapter
(0 for a failed scan; a failed scan aborts the build, so this default is
never read on a success path). -/
def scanCount (env : Env) (args : BuildVolumeArgs) (c : Nat × RPath × String) : Nat :=
  match env.scanDir c.2.1 args.enc_opts.accept_extended_image_formats with
  | .ok l => l.length
  | .error _ => 0

/-- Total number of scanned-and-accepted image files over all chapters. -/
def totalScannedPages (env : Env) (args : BuildVolumeArgs) : Nat :=
  (args.chapters.map (scanCount env args)).sum

/-- Extracts the in-archive path of a page-entry-creation effect. -/
def startFilePathOf : Effect → Option RPath
  | .zipStartFile p => some p
  | _ => none

/-- Extracts the bytes of a page-write effect. -/
def writeBytesOf : Effect → Option (List Nat)
  | .zipWrite _ b => some b
  | _ => none

/-- A fully cooperative environment: no path exists yet, every operation
succeeds, every chapter directory scans to an empty list. The concrete
scenarios below override individual oracles. -/
def testEnv : Env where
  pathExists := fun _ => false
  isDir := fun _ => false
  createFileOk := fun _ => true
  scanDir := fun _ _ => .ok []
  naturalLe := fun _ _ => true
  zipAddDirOk := fun _ => true
  zipStartFileOk := fun _ => true
  openOk := fun _ => true
  readOk := fun _ => true
  fileBytes := fun _ => [1, 2, 3]
  decode := fun _ => .ok .ImageRgb8
  encodeWebp := fun _ _ => [7, 7]
  zipWriteOk := fun _ => true
  zipFinishOk := true
  removeFileOk := fun _ => true
  renameOk := fun _ _ => true

/-- A one-chapter `Ranges` build: volume 3 of 5, first chapter 10,
padding widths 2 and 3, no overwrite, simple sorting, no extras. -/
def rangesArgs1 : BuildVolumeArgs where
  method := .Ranges ⟨false, false⟩
  enc_opts := ⟨false, false, false, false, true, false⟩
  output := ["out"]
  volume := 3
  volumes := 5
  vol_num_len := 2
  chapter_num_len := 3
  start_chapter := 10
  chapters := [(10, ["ch10"], "ch10")]

/-- Overwrite enabled, otherwise `rangesArgs1`. -/
def c1Args : BuildVolumeArgs :=
  { rangesArgs1 with enc_opts := ⟨true, false, false, false, true, false⟩ }

/-- The final path `out/Volume-03.cbz` already exists (as a regular file:
`isDir` answers false), and each chapter holds one page. -/
def c1Env : Env :=
  { testEnv with
    pathExists := fun p => p == ["out", "Volume-03.cbz"],
    scanDir := fun p _ => .ok [p.join "a.jpg"] }

/-- WebP transcoding enabled, otherwise `rangesArgs1`. -/
def c2Args : BuildVolumeArgs :=
  { rangesArgs1 with enc_opts := ⟨false, false, true, false, true, false⟩ }

/-- The chapter directory holds a single page that is already a WebP file
(`p1.webp`); its raw bytes are `[1, 2, 3]`, the re-encoder output `[7, 7]`. -/
def c2Env : Env :=
  { testEnv with scanDir := fun p _ => .ok [p.join "p1.webp"] }

/-- An `Each` build with `skip_existing` of the single chapter `Chapter 1`. -/
def c4Args : BuildVolumeArgs :=
  { rangesArgs1 with
    method := .Each ⟨true, false⟩,
    chapters := [(1, ["ch1"], "Chapter 1")] }

/-- The final path `out/Chapter 1.cbz` already exists. -/
def c4Env : Env :=
  { testEnv with pathExists := fun p => p == ["out", "Chapter 1.cbz"] }

/-- An `Each` build whose chapter list is empty: violates the arity
invariant. -/
def c5Args : BuildVolumeArgs :=
  { rangesArgs1 with method := .Each ⟨false, false⟩, chapters := [] }

/-- Page-count appending enabled, otherwise `rangesArgs1`. -/
def c6Args : BuildVolumeArgs :=
  { rangesArgs1 with enc_opts := ⟨false, false, false, false, true, true⟩ }

/-- The chapter directory holds two pages, listed in unsorted order. -/
def c6Env : Env :=
  { testEnv with scanDir := fun p _ => .ok [p.join "b.png", p.join "a.jpg"] }

/-- The staging path `out/Volume-03..comic-enc-partial` already exists. -/
def c7Env : Env :=
  { testEnv with pathExists := fun p => p == ["out", "Volume-03..comic-enc-partial"] }

/-- The chapter directory holds one page. -/
def c8Env : Env :=
  { testEnv with scanDir := fun p _ => .ok [p.join "a.jpg"] }

/-- Decoding yields a 16-bit grayscale image — a format the WebP encoder
does not support. -/
def c10Env : Env :=
  { testEnv with decode := fun _ => .ok .ImageLuma16 }

/-- A five-chapter `Ranges` build with the append-chapter-range option. -/
def c3Args : BuildVolumeArgs :=
  { rangesArgs1 with
    method := .Ranges ⟨true, false⟩,
    chapters := [(10, ["ch10"], "ch10"), (11, ["ch11"], "ch11"), (12, ["ch12"], "ch12"),
      (13, ["ch13"], "ch13"), (14, ["ch14"], "ch14")] }

/-- The effect trace of the successful two-page build of `c6Env`/`c6Args`. -/
def c6Trace : List Effect :=
  [.createFile ["out", "Volume-03..comic-enc-partial"],
   .scanDir ["ch10"],
   .zipAddDirectory "Vol_03_Chapter_010",
   .zipStartFile ["Vol_03_Chapter_010", "Vol_03_Chapter_010_Pic_0.jpg"],
   .zipWrite ["Vol_03_Chapter_010", "Vol_03_Chapter_010_Pic_0.jpg"] [1, 2, 3],
   .zipStartFile ["Vol_03_Chapter_010", "Vol_03_Chapter_010_Pic_1.png"],
   .zipWrite ["Vol_03_Chapter_010", "Vol_03_Chapter_010_Pic_1.png"] [1, 2, 3],
   .zipFinish,
   .rename ["out", "Volume-03..comic-enc-partial"] ["out", "Volume-03 (2 pages).cbz"]]

/-- The effect trace of the successful one-page build of `c8Env`/`rangesArgs1`. -/
def c8Trace : List Effect :=
  [.createFile ["out", "Volume-03..comic-enc-partial"],
   .scanDir ["ch10"],
   .zipAddDirectory "Vol_03_Chapter_010",
   .zipStartFile ["Vol_03_Chapter_010", "Vol_03_Chapter_010_Pic_0.jpg"],
   .zipWrite ["Vol_03_Chapter_010", "Vol_03_Chapter_010_Pic_0.jpg"] [1, 2, 3],
   .zipFinish,
   .rename ["out", "Volume-03..comic-enc-partial"] ["out", "Volume-03.cbz"]]

/-- The effect trace of processing one two-page chapter under `c6Env`. -/
def c9Trace : List Effect :=
  [.scanDir ["ch10"],
   .zipAddDirectory "Vol_03_Chapter_010",
   .zipStartFile ["Vol_03_Chapter_010", "Vol_03_Chapter_010_Pic_0.jpg"],
   .zipWrite ["Vol_03_Chapter_010", "Vol_03_Chapter_010_Pic_0.jpg"] [1, 2, 3],
   .zipStartFile ["Vol_03_Chapter_010", "Vol_03_Chapter_010_Pic_1.png"],
   .zipWrite ["Vol_03_Chapter_010", "Vol_03_Chapter_010_Pic_1.png"] [1, 2, 3]]

theorem fileName_withFileName (p : RPath) (n : String) :
    (p.withFileName n).fileName = some n := by
  simp [RPath.withFileName, RPath.fileName, List.getLast?_concat]

theorem fileName_join (p : RPath) (s : String) :
    (p.join s).fileName = some s := by
  simp [RPath.join, RPath.fileName, List.getLast?_concat]

theorem processPages_ok_count (env : Env) (args : BuildVolumeArgs) (vdn : String)
    (chapter : Nat) (cpath : RPath) (zdn : String) (pnl : Nat) :
    ∀ (l : List RPath) (i k : Nat) (effs : List Effect),
      processPages env args vdn chapter cpath zdn pnl i l = (.ok k, effs) →
      k = l.length := by
  intro l
  induction l with
  | nil =>
    intro i k effs h
    simp only [processPages] at h
    cases h
    rfl
  | cons f rest ih =>
    intro i k effs h
    simp only [processPages] at h
    rcases h1 : processPage env args vdn chapter cpath zdn pnl i f with ⟨o1, e1⟩
    rw [h1] at h
    cases o1 with
    | ok u =>
      rcases h2 : processPages env args vdn chapter cpath zdn pnl (i + 1) rest with ⟨o2, e2⟩
      rw [h2] at h
      cases o2 with
      | ok k2 =>
        simp only [Prod.mk.injEq, Outcome.ok.injEq] at h
        obtain ⟨hk, -⟩ := h
        have := ih (i + 1) k2 e2 h2
        simp [← hk, this]
      | err e => simp at h
      | panic m => simp at h
    | err e => simp at h
    | panic m => simp at h

theorem length_insertLe (le : RPath → RPath → Bool) (x : RPath) (l : List RPath) :
    (insertLe le x l).length = l.length + 1 := by
  induction l with
  | nil => rfl
  | cons y ys ih =>
    simp only [insertLe]
    split <;> simp [ih]

theorem length_sortByLe (le : RPath → RPath → Bool) (l : List RPath) :
    (sortByLe le l).length = l.length := by
  induction l with
  | nil => rfl
  | cons x xs ih => simp [sortByLe, length_insertLe, ih]

theorem sortedPics_length (env : Env) (args : BuildVolumeArgs) (pics : List RPath) :
    (sortedPics env args pics).length = pics.length := by
  unfold sortedPics
  split <;> simp [length_sortByLe]

theorem picExt_ok_eq (enc_opts : EncodingOptions) (f : RPath) (e : String)
    (h : picExt enc_opts f = .ok e) : e = picExtD enc_opts f := by
  unfold picExt at h
  unfold picExtD
  split at h
  · cases h
    simp_all
  · rcases hfe : f.extension with - | ee
    · rw [hfe] at h
      cases h
    · rw [hfe] at h
      cases h
      simp_all

theorem processPage_ok_trace (env : Env) (args : BuildVolumeArgs) (vdn : String)
    (chapter : Nat) (cpath : RPath) (zdn : String) (pnl i : Nat) (f : RPath)
    (u : Unit) (effs : List Effect)
    (h : processPage env args vdn chapter cpath zdn pnl i f = (.ok u, effs)) :
    ∃ b, effs =
      [.zipStartFile [zdn, nameInZip args.method vdn args.volume chapter
          args.vol_num_len args.chapter_num_len pnl i (picExtD args.enc_opts f)],
       .zipWrite [zdn, nameInZip args.method vdn args.volume chapter
          args.vol_num_len args.chapter_num_len pnl i (picExtD args.enc_opts f)] b] := by
  simp only [processPage] at h
  cases hx : picExt args.enc_opts f with
  | panic m => rw [hx] at h; cases h
  | err e => rw [hx] at h; cases h
  | ok e =>
    rw [hx] at h
    have he : e = picExtD args.enc_opts f := picExt_ok_eq args.enc_opts f e hx
    subst he
    simp only at h
    split at h
    · cases h
    · split at h
      · cases h
      · split at h
        · cases h
        · cases ht : transcodeIfNeeded env args chapter cpath f (env.fileBytes f) with
          | panic m => rw [ht] at h; cases h
          | err e2 => rw [ht] at h; cases h
          | ok buffer =>
            rw [ht] at h
            simp only at h
            split at h
            · cases h
            · cases h
              exact ⟨buffer, rfl⟩

theorem processPages_ok_trace (env : Env) (args : BuildVolumeArgs) (vdn : String)
    (chapter : Nat) (cpath : RPath) (zdn : String) (pnl : Nat) :
    ∀ (l : List RPath) (i k : Nat) (effs : List Effect),
      processPages env args vdn chapter cpath zdn pnl i l = (.ok k, effs) →
      effs.filterMap startFilePathOf =
        (List.enumFrom i l).map (fun pr =>
          [zdn, nameInZip args.method vdn args.volume chapter
            args.vol_num_len args.chapter_num_len pnl pr.1
            (picExtD args.enc_opts pr.2)]) := by
  intro l
  induction l with
  | nil =>
    intro i k effs h
    simp only [processPages] at h
    cases h
    rfl
  | cons f rest ih =>
    intro i k effs h
    simp only [processPages] at h
    rcases h1 : processPage env args vdn chapter cpath zdn pnl i f with ⟨o1, e1⟩
    rw [h1] at h
    cases o1 with
    | ok u =>
      rcases h2 : processPages env args vdn chapter cpath zdn pnl (i + 1) rest with ⟨o2, e2⟩
      rw [h2] at h
      cases o2 with
      | ok k2 =>
        simp only [Prod.mk.injEq, Outcome.ok.injEq] at h
        obtain ⟨-, heffs⟩ := h
        subst heffs
        obtain ⟨b, hb⟩ := processPage_ok_trace env args vdn chapter cpath zdn pnl i f u e1 h1
        subst hb
        rw [List.filterMap_append, ih (i + 1) k2 e2 h2, List.enumFrom_cons]
        simp [startFilePathOf]
      | err e => simp at h
      | panic m => simp at h
    | err e => simp at h
    | panic m => simp at h

theorem processChapter_ok (env : Env) (args : BuildVolumeArgs) (vdn : String)
    (c : Nat × RPath × String) (k : Nat) (effs : List Effect)
    (h : processChapter env args vdn c = (.ok k, effs)) :
    ∃ pics,
      env.scanDir c.2.1 args.enc_opts.accept_extended_image_formats = .ok pics ∧
      k = pics.length ∧
      effs.filterMap startFilePathOf =
        (List.enumFrom 0 (sortedPics env args pics)).map (fun pr =>
          [zipDirName args c.1,
           nameInZip args.method vdn args.volume c.1 args.vol_num_len
             args.chapter_num_len ((toString (sortedPics env args pics).length).length)
             pr.1 (picExtD args.enc_opts pr.2)]) := by
  simp only [processChapter] at h
  cases hs : env.scanDir c.2.1 args.enc_opts.accept_extended_image_formats with
  | error e =>
    rw [hs] at h
    cases e <;> cases h
  | ok pics =>
    rw [hs] at h
    simp only at h
    split at h
    · cases h
    · rcases hp : processPages env args vdn c.1 c.2.1 (zipDirName args c.1)
        ((toString (sortedPics env args pics).length).length) 0
        (sortedPics env args pics) with ⟨op, effsP⟩
      rw [hp] at h
      simp only [Prod.mk.injEq] at h
      obtain ⟨ho, heffs⟩ := h
      subst heffs
      cases op with
      | ok kp =>
        cases ho
        refine ⟨pics, rfl, ?_, ?_⟩
        · have := processPages_ok_count env args vdn c.1 c.2.1 (zipDirName args c.1)
            ((toString (sortedPics env args pics).length).length)
            (sortedPics env args pics) 0 k effsP hp
          rw [this, sortedPics_length]
        · have := processPages_ok_trace env args vdn c.1 c.2.1 (zipDirName args c.1)
            ((toString (sortedPics env args pics).length).length)
            (sortedPics env args pics) 0 k effsP hp
          simpa [startFilePathOf] using this
      | err e => cases ho
      | panic m => cases ho

theorem processChapters_ok_count (env : Env) (args : BuildVolumeArgs) (vdn : String) :
    ∀ (cs : List (Nat × RPath × String)) (k : Nat) (effs : List Effect),
      processChapters env args vdn cs = (.ok k, effs) →
      k = (cs.map (scanCount env args)).sum := by
  intro cs
  induction cs with
  | nil =>
    intro k effs h
    simp only [processChapters] at h
    cases h
    rfl
  | cons c rest ih =>
    intro k effs h
    simp only [processChapters] at h
    rcases h1 : processChapter env args vdn c with ⟨o1, e1⟩
    rw [h1] at h
    cases o1 with
    | ok k1 =>
      rcases h2 : processChapters env args vdn rest with ⟨o2, e2⟩
      rw [h2] at h
      cases o2 with
      | ok k2 =>
        simp only [Prod.mk.injEq, Outcome.ok.injEq] at h
        obtain ⟨hk, -⟩ := h
        obtain ⟨pics, hs, hk1, -⟩ := processChapter_ok env args vdn c k1 e1 h1
        have hk2 := ih k2 e2 h2
        subst hk
        simp only [List.map_cons, List.sum_cons]
        rw [hk1, hk2, scanCount, hs]
      | err e => simp at h
      | panic m => simp at h
    | err e => simp at h
    | panic m => simp at h

theorem renameStep_ok (env : Env) (args : BuildVolumeArgs) (staging complete : RPath)
    (effs0 : List Effect) (p : RPath) (effs : List Effect)
    (h : renameStep env args staging complete effs0 = (.ok p, effs)) :
    p = staging ∧ effs = effs0 ++ [.rename staging complete] := by
  simp only [renameStep] at h
  split at h
  · cases h
  · cases hf : complete.fileName with
    | none => rw [hf] at h; cases h
    | some n =>
      rw [hf] at h
      cases h
      exact ⟨rfl, rfl⟩

theorem finishAndPublish_ok (env : Env) (args : BuildVolumeArgs) (base staging : RPath)
    (pics : Nat) (p : RPath) (effs : List Effect)
    (h : finishAndPublish env args base staging pics = (.ok p, effs)) :
    p = staging ∧ ∃ complete,
      completePathFor args base pics = .ok complete ∧
      effs.getLast? = some (.rename staging complete) := by
  simp only [finishAndPublish] at h
  split at h
  · cases h
  · cases hc : completePathFor args base pics with
    | panic m => rw [hc] at h; cases h
    | err e => rw [hc] at h; cases h
    | ok complete =>
      rw [hc] at h
      simp only at h
      split at h
      · split at h
        · cases h
        · split at h
          · cases h
          · split at h
            · cases h
            · obtain ⟨hp, heffs⟩ := renameStep_ok env args staging complete _ p effs h
              exact ⟨hp, complete, rfl, by rw [heffs, List.getLast?_concat]⟩
      · obtain ⟨hp, heffs⟩ := renameStep_ok env args staging complete _ p effs h
        exact ⟨hp, complete, rfl, by rw [heffs, List.getLast?_concat]⟩

theorem getLast?_cons_append {α : Type} (c : α) (l1 l2 : List α) (r : α)
    (h : l2.getLast? = some r) : (c :: (l1 ++ l2)).getLast? = some r := by
  rw [show c :: (l1 ++ l2) = [c] ++ (l1 ++ l2) from rfl,
    List.getLast?_append, List.getLast?_append, h]
  rfl

theorem buildVolumeStage_ok (env : Env) (args : BuildVolumeArgs) (base p : RPath)
    (effs : List Effect) (h : buildVolumeStage env args base = (.ok p, effs)) :
    p = stagingPathFor base ∧ ∃ vdn pics effsC complete,
      volumeDisplayName args base = .ok vdn ∧
      processChapters env args vdn args.chapters = (.ok pics, effsC) ∧
      completePathFor args base pics = .ok complete ∧
      effs.getLast? = some (.rename (stagingPathFor base) complete) := by
  simp only [buildVolumeStage] at h
  split at h
  · cases h
  · split at h
    · cases h
    · cases hv : volumeDisplayName args base with
      | panic m => rw [hv] at h; cases h
      | err e => rw [hv] at h; cases h
      | ok vdn =>
        rw [hv] at h
        simp only at h
        rcases hpc : processChapters env args vdn args.chapters with ⟨oc, effsC⟩
        rw [hpc] at h
        cases oc with
        | ok pics =>
          simp only at h
          rcases hfp : finishAndPublish env args base (stagingPathFor base) pics with ⟨of, effsF⟩
          rw [hfp] at h
          simp only [Prod.mk.injEq] at h
          obtain ⟨ho, heffs⟩ := h
          cases of with
          | ok q =>
            cases ho
            obtain ⟨hp, complete, hc, hl⟩ :=
              finishAndPublish_ok env args base (stagingPathFor base) pics p effsF hfp
            subst heffs
            exact ⟨hp, vdn, pics, effsC, complete, rfl, hpc, hc,
              getLast?_cons_append _ effsC effsF _ hl⟩
          | err e => cases ho
          | panic m => cases ho
        | err e => simp at h
        | panic m => simp at h

theorem completePathFor_append (args : BuildVolumeArgs) (base : RPath) (pics : Nat)
    (complete : RPath) (happ : args.enc_opts.append_pages_count = true)
    (h : completePathFor args base pics = .ok complete) :
    ∃ stem, complete.fileName = some (stem ++ " (" ++ toString pics ++ " pages).cbz") := by
  simp only [completePathFor, happ, if_true] at h
  cases hf : ((base.withExtension "cbz").withExtension "").fileName with
  | none => rw [hf] at h; cases h
  | some fname =>
    rw [hf] at h
    cases h
    exact ⟨fname, by rw [fileName_withFileName]⟩

theorem buildVolume_ok_stage (env : Env) (args : BuildVolumeArgs) (p : RPath)
    (effs : List Effect) (h : buildVolume env args = (.ok p, effs))
    (hns : skipShortcutB env args = false) :
    buildVolumeStage env args (outputPathWithoutExt args) = (.ok p, effs) := by
  simp only [buildVolume] at h
  cases hm : args.method with
  | Ranges opts => rwa [hm] at h
  | Single opts => rwa [hm] at h
  | Each opts =>
    rw [hm] at h
    simp only at h
    split at h
    · cases h
    · simp only [skipShortcutB, hm, Bool.and_eq_false_iff] at hns
      cases hsk : opts.skip_existing with
      | false => rwa [hsk, if_neg (by simp)] at h
      | true =>
        rw [hsk, if_pos rfl] at h
        rcases hns with hns | hns
        · rw [hsk] at hns; cases hns
        · rwa [hns, if_neg (by simp)] at h

theorem buildVolume_eq_stage (env : Env) (args : BuildVolumeArgs)
    (hart : eachArityOk args = true) (hns : skipShortcutB env args = false) :
    buildVolume env args = buildVolumeStage env args (outputPathWithoutExt args) := by
  cases hm : args.method with
  | Ranges opts => simp [buildVolume, hm]
  | Single opts => simp [buildVolume, hm]
  | Each opts =>
    simp only [eachArityOk, hm] at hart
    simp only [skipShortcutB, hm, Bool.and_eq_false_iff] at hns
    have hlen : args.chapters.length = 1 := by simpa using hart
    simp only [buildVolume, hm, hlen]
    rw [if_neg (by simp)]
    cases hsk : opts.skip_existing with
    | false => rw [if_neg (by simp [hsk])]
    | true =>
      rcases hns with h | h
      · rw [hsk] at h; cases h
      · rw [if_pos rfl, if_neg (by simp [h])]

/-- C3: with the `Ranges` method the output base name is
`Volume-<volume>` (volume zero-padded to `vol_num_len`) when the
append-chapter-range option is off or the chapter list is empty, and
`Volume-<volume> (c<start>-c<end>)` otherwise, with start and end padded
to `chapter_num_len` and `end = start_chapter + number of chapters − 1`;
in particular volume 3, start chapter 10, 5 chapters, widths 2 and 3 give
`Volume-03 (c010-c014)`. -/
theorem c3_ranges_naming (args : BuildVolumeArgs) (opts : CompileRanges)
    (hm : args.method = .Ranges opts) :
    ((opts.append_chapters_range = false ∨ args.chapters = []) →
      (outputPathWithoutExt args).fileName =
        some ("Volume-" ++ padNum args.volume args.vol_num_len)) ∧
    (opts.append_chapters_range = true → args.chapters ≠ [] →
      (outputPathWithoutExt args).fileName =
        some ("Volume-" ++ padNum args.volume args.vol_num_len
          ++ " (c" ++ padNum args.start_chapter args.chapter_num_len
          ++ "-c" ++ padNum (args.start_chapter + args.chapters.length - 1) args.chapter_num_len
          ++ ")")) ∧
    (args.volume = 3 → args.start_chapter = 10 → args.chapters.length = 5 →
      args.vol_num_len = 2 → args.chapter_num_len = 3 → opts.append_chapters_range = true →
      (outputPathWithoutExt args).fileName = some "Volume-03 (c010-c014)") := by
  refine ⟨?_, ?_, ?_⟩
  · rintro (h | h)
    · simp [outputPathWithoutExt, hm, h, fileName_join]
    · simp [outputPathWithoutExt, hm, h, fileName_join]
  · intro h1 h2
    simp [outputPathWithoutExt, hm, h1, List.isEmpty_iff, h2, fileName_join]
  · intro hv hs hl hvl hcl ha
    have hne : args.chapters.isEmpty = false := by
      cases hc : args.chapters with
      | nil => rw [hc] at hl; cases hl
      | cons a l => rfl
    simp only [outputPathWithoutExt, hm, ha, hne, hv, hs, hl, hvl, hcl,
      Bool.not_true, Bool.false_or]
    rw [if_neg (by simp), fileName_join]
    decide

theorem c3_ranges_naming_witness :
    c3Args.method = BuildMethod.Ranges ⟨true, false⟩ ∧
    (outputPathWithoutExt c3Args).fileName = some "Volume-03 (c010-c014)" :=
  ⟨rfl, (c3_ranges_naming c3Args ⟨true, false⟩ rfl).2.2 rfl rfl rfl rfl rfl rfl⟩

/-- C4: with the `Each` method, `skip_existing` set, and the final file
(base name plus `cbz` extension) already existing, `build_volume` returns
the existing final path as success and performs no effects at all — no
staging file, no directory scan, no archive write. -/
theorem c4_skip_existing_no_writes (env : Env) (args : BuildVolumeArgs) (opts : CompileEach)
    (hm : args.method = .Each opts) (hskip : opts.skip_existing = true)
    (hlen : args.chapters.length = 1)
    (hex : env.pathExists ((outputPathWithoutExt args).withExtension "cbz") = true) :
    buildVolume env args = (.ok ((outputPathWithoutExt args).withExtension "cbz"), []) := by
  simp [buildVolume, hm, hlen, hskip, hex]

theorem c4_skip_existing_no_writes_witness :
    c4Args.method = BuildMethod.Each ⟨true, false⟩ ∧
    c4Args.chapters.length = 1 ∧
    c4Env.pathExists ((outputPathWithoutExt c4Args).withExtension "cbz") = true ∧
    buildVolume c4Env c4Args = (.ok ((outputPathWithoutExt c4Args).withExtension "cbz"), []) :=
  ⟨rfl, rfl, by decide,
    c4_skip_existing_no_writes c4Env c4Args ⟨true, false⟩ rfl rfl rfl (by decide)⟩

/-- C5: an `Each` build whose chapter list does not have length exactly 1
hits the fatal arity assertion: the outcome is a panic (before any
effect), not a recoverable error value. -/
theorem c5_each_arity_panics (env : Env) (args : BuildVolumeArgs) (opts : CompileEach)
    (hm : args.method = .Each opts) (hlen : args.chapters.length ≠ 1) :
    buildVolume env args =
      (.panic "Internal error: individual chapter's volume does contain exactly 1 chapter!",
        []) := by
  simp [buildVolume, hm, hlen]

theorem c5_each_arity_panics_witness :
    c5Args.method = BuildMethod.Each ⟨false, false⟩ ∧ c5Args.chapters.length ≠ 1 ∧
    buildVolume testEnv c5Args =
      (.panic "Internal error: individual chapter's volume does contain exactly 1 chapter!",
        []) :=
  ⟨rfl, by decide, c5_each_arity_panics testEnv c5Args ⟨false, false⟩ rfl (by decide)⟩

/-- C7: when the staging path already exists and `overwrite` is off (and
neither the `Each` arity assertion nor the skip-existing short-circuit
intervenes), `build_volume` fails with the output-volume-already-exists
error naming the volume ordinal and the staging path, and performs no
effect. -/
theorem c7_staging_collision (env : Env) (args : BuildVolumeArgs)
    (hart : eachArityOk args = true) (hns : skipShortcutB env args = false)
    (hex : env.pathExists (stagingPathFor (outputPathWithoutExt args)) = true)
    (how : args.enc_opts.overwrite = false) :
    buildVolume env args =
      (.err (.OutputVolumeFileAlreadyExists args.volume
        (stagingPathFor (outputPathWithoutExt args))), []) := by
  rw [buildVolume_eq_stage env args hart hns]
  simp [buildVolumeStage, hex, how]

theorem c7_staging_collision_witness :
    eachArityOk rangesArgs1 = true ∧ skipShortcutB c7Env rangesArgs1 = false ∧
    c7Env.pathExists (stagingPathFor (outputPathWithoutExt rangesArgs1)) = true ∧
    rangesArgs1.enc_opts.overwrite = false ∧
    buildVolume c7Env rangesArgs1 =
      (.err (.OutputVolumeFileAlreadyExists rangesArgs1.volume
        (stagingPathFor (outputPathWithoutExt rangesArgs1))), []) :=
  ⟨by decide, by decide, by decide, rfl,
    c7_staging_collision c7Env rangesArgs1 (by decide) (by decide) (by decide) rfl⟩

/-- C10: under WebP transcoding of a non-`.webp`-named file, only the
8-bit single-channel and 8-bit single-channel-plus-alpha decoded formats
are promoted (to three-channel color); every other format is passed to the
encoder unchanged, and when the encoder does not support the resulting
format the unwrap panics instead of returning a typed per-file error. -/
theorem c10_unsupported_format_panics (env : Env) (args : BuildVolumeArgs)
    (chapter : Nat) (cpath f : RPath) (buffer : List Nat) (im : DynamicImage)
    (hw : args.enc_opts.compress_webp = true)
    (hnw : f.endsWith [".webp"] = false)
    (hdec : env.decode buffer = .ok im)
    (hunsup : encoderFromImage (promoteForWebp im) = none) :
    transcodeIfNeeded env args chapter cpath f buffer
      = .panic "called Result::unwrap on an Err value" ∧
    promoteForWebp .ImageLuma8 = .ImageRgb8 ∧
    promoteForWebp .ImageLumaA8 = .ImageRgb8 ∧
    (∀ j : DynamicImage, j ≠ .ImageLuma8 → j ≠ .ImageLumaA8 → promoteForWebp j = j) := by
  refine ⟨?_, rfl, rfl, ?_⟩
  · simp [transcodeIfNeeded, hw, hnw, hdec, hunsup]
  · intro j h1 h2
    cases j <;> simp_all [promoteForWebp]

theorem c10_unsupported_format_panics_witness :
    c2Args.enc_opts.compress_webp = true ∧
    RPath.endsWith ["ch10", "p1.png"] [".webp"] = false ∧
    c10Env.decode [1, 2, 3] = .ok .ImageLuma16 ∧
    encoderFromImage (promoteForWebp .ImageLuma16) = none ∧
    transcodeIfNeeded c10Env c2Args 10 ["ch10"] ["ch10", "p1.png"] [1, 2, 3]
      = .panic "called Result::unwrap on an Err value" :=
  ⟨rfl, by decide, rfl, rfl,
    (c10_unsupported_format_panics c10Env c2Args 10 ["ch10"] ["ch10", "p1.png"] [1, 2, 3]
      .ImageLuma16 rfl (by decide) rfl rfl).1⟩

/-- C6: every successful build with `append_pages_count` (and without the
skip-existing short-circuit) ends with the rename of the staging file onto
a final path whose file name carries the suffix `" (<M> pages).cbz"`, where
`M` is the total number of scanned-and-accepted image files over all
chapters; the rename is the last effect, i.e. the suffix is resolved after
every page write. -/
theorem c6_pages_count_suffix (env : Env) (args : BuildVolumeArgs) (p : RPath)
    (effs : List Effect) (hok : buildVolume env args = (.ok p, effs))
    (happ : args.enc_opts.append_pages_count = true)
    (hns : skipShortcutB env args = false) :
    ∃ complete stem,
      effs.getLast? = some (.rename (stagingPathFor (outputPathWithoutExt args)) complete) ∧
      complete.fileName =
        some (stem ++ " (" ++ toString (totalScannedPages env args) ++ " pages).cbz") := by
  have hs := buildVolume_ok_stage env args p effs hok hns
  obtain ⟨hp, vdn, pics, effsC, complete, hv, hpc, hc, hl⟩ :=
    buildVolumeStage_ok env args (outputPathWithoutExt args) p effs hs
  have hcount := processChapters_ok_count env args vdn args.chapters pics effsC hpc
  obtain ⟨stem, hstem⟩ :=
    completePathFor_append args (outputPathWithoutExt args) pics complete happ hc
  refine ⟨complete, stem, hl, ?_⟩
  have hpics : totalScannedPages env args = pics := by rw [totalScannedPages, ← hcount]
  rw [hpics, hstem]

theorem c6_pages_count_suffix_witness :
    buildVolume c6Env c6Args = (.ok ["out", "Volume-03..comic-enc-partial"], c6Trace) ∧
    c6Args.enc_opts.append_pages_count = true ∧
    skipShortcutB c6Env c6Args = false ∧
    (∃ complete stem,
      c6Trace.getLast? =
        some (.rename (stagingPathFor (outputPathWithoutExt c6Args)) complete) ∧
      complete.fileName =
        some (stem ++ " (" ++ toString (totalScannedPages c6Env c6Args) ++ " pages).cbz")) :=
  ⟨by decide, rfl, by decide,
    c6_pages_count_suffix c6Env c6Args ["out", "Volume-03..comic-enc-partial"] c6Trace
      (by decide) rfl (by decide)⟩

/-- C8: every successful build that did not take the `Each` +
`skip_existing` short-circuit returns the STAGING path — the base name
with the partial-build marker extension — as its `Ok` value, not the
renamed final path. -/
theorem c8_returns_staging_path (env : Env) (args : BuildVolumeArgs) (p : RPath)
    (effs : List Effect) (hok : buildVolume env args = (.ok p, effs))
    (hns : skipShortcutB env args = false) :
    p = stagingPathFor (outputPathWithoutExt args) :=
  (buildVolumeStage_ok env args (outputPathWithoutExt args) p effs
    (buildVolume_ok_stage env args p effs hok hns)).1

theorem c8_returns_staging_path_witness :
    buildVolume c8Env rangesArgs1 = (.ok ["out", "Volume-03..comic-enc-partial"], c8Trace) ∧
    skipShortcutB c8Env rangesArgs1 = false ∧
    (["out", "Volume-03..comic-enc-partial"] : RPath) =
      stagingPathFor (outputPathWithoutExt rangesArgs1) :=
  ⟨by decide, by decide,
    c8_returns_staging_path c8Env rangesArgs1 ["out", "Volume-03..comic-enc-partial"] c8Trace
      (by decide) (by decide)⟩

/-- C9: when a chapter is processed successfully, the archive page entries
it creates are exactly one per page of the sorted page list, in order,
named with the zero-based enumeration index `0 … n−1` zero-padded to the
decimal digit width of `n` (the chapter's page count) — the index comes
from the enumeration of the sorted list, not from the source file name. -/
theorem c9_page_entry_numbering (env : Env) (args : BuildVolumeArgs) (vdn : String)
    (c : Nat × RPath × String) (k : Nat) (effs : List Effect)
    (h : processChapter env args vdn c = (.ok k, effs)) :
    ∃ pics,
      env.scanDir c.2.1 args.enc_opts.accept_extended_image_formats = .ok pics ∧
      effs.filterMap startFilePathOf =
        (List.enumFrom 0 (sortedPics env args pics)).map (fun pr =>
          [zipDirName args c.1,
           nameInZip args.method vdn args.volume c.1 args.vol_num_len args.chapter_num_len
             ((toString (sortedPics env args pics).length).length) pr.1
             (picExtD args.enc_opts pr.2)]) := by
  obtain ⟨pics, hs, -, ht⟩ := processChapter_ok env args vdn c k effs h
  exact ⟨pics, hs, ht⟩

theorem c9_page_entry_numbering_witness :
    processChapter c6Env rangesArgs1 "03" (10, ["ch10"], "ch10") = (.ok 2, c9Trace) ∧
    (∃ pics,
      c6Env.scanDir (10, (["ch10"] : RPath), "ch10").2.1
        rangesArgs1.enc_opts.accept_extended_image_formats = .ok pics ∧
      c9Trace.filterMap startFilePathOf =
        (List.enumFrom 0 (sortedPics c6Env rangesArgs1 pics)).map (fun pr =>
          [zipDirName rangesArgs1 (10, (["ch10"] : RPath), "ch10").1,
           nameInZip rangesArgs1.method "03" rangesArgs1.volume
             (10, (["ch10"] : RPath), "ch10").1 rangesArgs1.vol_num_len
             rangesArgs1.chapter_num_len
             ((toString (sortedPics c6Env rangesArgs1 pics).length).length) pr.1
             (picExtD rangesArgs1.enc_opts pr.2)])) :=
  ⟨by decide,
    c9_page_entry_numbering c6Env rangesArgs1 "03" (10, ["ch10"], "ch10") 2 c9Trace
      (by decide)⟩

/-- C1 (code bug): the final-path publishing check is inverted. In the
scenario the claim describes as the success case — the final path exists,
is a REGULAR FILE (`isDir` answers false), and `overwrite` is enabled —
the build does not delete-and-replace: it fails, and with the
destination-is-a-directory error; no remove or rename effect is
performed, so a second build onto the same final path with overwrite
enabled does not replace the file. -/
theorem c1_overwrite_existing_file_fails :
    c1Args.enc_opts.overwrite = true ∧
    c1Env.pathExists ["out", "Volume-03.cbz"] = true ∧
    c1Env.isDir ["out", "Volume-03.cbz"] = false ∧
    (buildVolume c1Env c1Args).1
      = .err (.OutputVolumeFileIsADirectory 3 ["out", "Volume-03.cbz"]) ∧
    ((buildVolume c1Env c1Args).2.any fun e =>
      match e with
      | .removeFile _ => true
      | .rename _ _ => true
      | _ => false) = false :=
  ⟨rfl, by decide, rfl, by decide, by decide⟩

/-- C2 (code bug): a source page that is already a WebP file by extension
(`p1.webp`) is NOT copied byte-for-byte: `file.ends_with(".webp")` is a
whole-component path test that is false for `p1.webp`, so the transcoder
(decode + re-encode) runs and the bytes written to the archive are the
re-encoder's output `[7, 7]`, not the source bytes `[1, 2, 3]`. -/
theorem c2_webp_source_is_transcoded :
    c2Args.enc_opts.compress_webp = true ∧
    rustExtensionOfName "p1.webp" = some "webp" ∧
    RPath.endsWith ["ch10", "p1.webp"] [".webp"] = false ∧
    c2Env.fileBytes ["ch10", "p1.webp"] = [1, 2, 3] ∧
    (buildVolume c2Env c2Args).2.filterMap writeBytesOf = [[7, 7]] :=
  ⟨rfl, by decide, by decide, rfl, by decide⟩
